import Mathlib

/-!
A verification development for the catalog-resolution and price-tracking
engine of the psn-wishlist-telegram-bot repository (`app/models.py`).

The Python code is shallowly embedded as follows.

* The SQLite database behind SQLAlchemy is a `DB` value: explicit lists of
  rows for the `games`, `prices`, `users` and `wishes` tables.  Surrogate
  primary keys (`uuid4` strings in the source) are modelled by a counter
  `DB.nextId`; only freshness/distinctness of the uuids matters.
* SQLAlchemy's `one_or_none` is `one_or_none` below: it errors with
  `PyErr.multipleResults` when more than one row matches, mirroring
  `MultipleResultsFound`.  `session.merge` on a `Price` object that carries a
  freshly generated uuid primary key never matches an existing row, so it is
  an insert (this is what the source actually does; see `price_update_price`).
* Python exceptions are the `Except` monad with error type `PyErr`.
  `ValueError` (raised explicitly, or re-raised after catching
  `StopIteration`/`ValueError` from the extractor) is `PyErr.valueError`;
  exceptions that no caller of the engine catches (`AttributeError`,
  `KeyError`, `IndexError`) are `PyErr.crash`; a raw `StopIteration`
  escaping is `PyErr.stopIteration`.
* `Game.get_game_info` performs network I/O.  For the reconciler/recorder
  level functions it is abstracted as a pure oracle `fetch : Fetch`
  (identifier kind and value to extraction outcome).  The body of
  `get_game_info` itself is embedded separately over an abstract fetched
  `Page` (see `get_game_info_page`) for the extractor claims.
* Strings are treated at the ASCII level: Python's `re` classes `\\d` and
  `\\w` and `str.isnumeric` are modelled by `Char.isDigit` and
  `Char.isAlphanum`/underscore, which agree with Python on ASCII input.
* `session_scope` commits on success and rolls back on an exception; since
  every embedded operation returns `Except`, a `.error` result stands for
  "transaction rolled back, exception propagating" and carries no state.
-/

/-! ## Python-level error taxonomy -/

/-- Exceptions as seen by the engine's callers. -/
inductive PyErr where
  | valueError (msg : String)
  | stopIteration
  | multipleResults
  | crash
deriving DecidableEq, Repr

/-- Outcomes of `Game.get_game_info` (the page extractor).
`stopIteration` and `valueError` are the exceptions `Game.get_or_create`
catches and converts to a user-facing `ValueError` (models.py line 238);
`crash` is any other exception (`AttributeError`, `KeyError`, `IndexError`),
which no engine code catches. -/
inductive ExtractErr where
  | stopIteration
  | valueError
  | crash
deriving DecidableEq, Repr

/-! ## Identifier normalization (models.py lines 213-229)

`Game.get_or_create` first normalizes `game_id`: a bare token matching
`\d+|[\d\w-]+` is kept as is; otherwise the input is parsed as a URL, which
must have host `store.playstation.com` and a path fully matching
`/[a-z\-]+/(concept/\d+|product/[\w\d-]+)`, and is reduced to the trailing
path segment.  The (possibly reduced) id is classified by `str.isnumeric`:
numeric means `concept_id`, anything else means `product_id`. -/

def PSN_URL : String := "store.playstation.com"

/-- Characters matched by the character class `[\d\w-]` of the bare-token
regex (ASCII): letters, digits, underscore, hyphen. -/
def isWordHyphenChar (c : Char) : Bool :=
  c.isAlphanum || c == '_' || c == '-'

/-- `re.fullmatch(r'\d+|[\d\w-]+', s)` as a Boolean: the first alternative is
subsumed by the second, so the regex matches exactly the nonempty strings of
word/hyphen characters. -/
def bareTokenMatch (s : String) : Bool :=
  !s.data.isEmpty && s.data.all isWordHyphenChar

/-- `str.isnumeric` on ASCII input: nonempty and all digits. -/
def isNumericPy (s : String) : Bool :=
  !s.data.isEmpty && s.data.all Char.isDigit

/-- Drops `pre` from the front of `l`, or `none` if `pre` is not there. -/
def dropLeading : List Char → List Char → Option (List Char)
  | [], l => some l
  | _ :: _, [] => none
  | p :: ps, x :: xs => if x == p then dropLeading ps xs else none

def notHostEnd (c : Char) : Bool := !(c == '/' || c == '?' || c == '#')

def notPathEnd (c : Char) : Bool := !(c == '?' || c == '#')

/-- The two fields of `urllib3.util.parse_url`'s result that the source
reads: `host` and `path`.  Both are nullable: in particular `path` is
`None` when nothing (or only a query/fragment) follows the authority. -/
structure PyUrl where
  host : Option String
  path : Option String
deriving DecidableEq, Repr

/-- Characters of urllib3's `SCHEME_RE` class after the leading letter
(`[a-zA-Z][a-zA-Z0-9+-]*:`). -/
def isSchemeChar (c : Char) : Bool := c.isAlphanum || c == '+' || c == '-'

/-- The path component: the text up to the first `?` or `#`, or `None` when
that text is empty (urllib3 turns an empty path match into `None`). -/
def pathOf (l : List Char) : Option String :=
  if (l.takeWhile notPathEnd).isEmpty then none
  else some (String.mk (l.takeWhile notPathEnd))

/-- `auth, _, host_port = authority.rpartition('@')`: the text after the
last `@` of the authority. -/
def dropUserinfo (l : List Char) : List Char :=
  (l.reverse.takeWhile (fun c => !(c == '@'))).reverse

def portDigitsVal (l : List Char) : Nat :=
  l.foldl (fun n c => n * 10 + (c.toNat - '0'.toNat)) 0

/-- Splitting an optional `:port` off the host-port text.  urllib3 accepts
a digits-only (possibly empty) port of value at most 65535 and raises
`LocationParseError` — a `ValueError` subclass — otherwise (a host
containing a stray `:`, such as an unbracketed IPv6 literal, also lands in
the error branch there as here). -/
def splitPort (l : List Char) : Except PyErr (List Char) :=
  if l.contains ':' then
    if ((l.reverse.takeWhile (fun c => !(c == ':'))).reverse).all Char.isDigit then
      if portDigitsVal ((l.reverse.takeWhile (fun c => !(c == ':'))).reverse) ≤ 65535 then
        .ok (l.take (l.length -
          (((l.reverse.takeWhile (fun c => !(c == ':'))).reverse).length + 1)))
      else .error (.valueError "port out of range")
    else .error (.valueError "bad authority")
  else .ok l

/-- Parsing the authority part (what follows `//`): userinfo up to the last
`@` is dropped, an optional numeric `:port` is split off, and the host is
lowercased (urllib3 normalizes the host for http/https/absent schemes);
what follows the authority becomes the path. -/
def parseAuthority (r : List Char) : Except PyErr PyUrl :=
  match splitPort (dropUserinfo (r.takeWhile notHostEnd)) with
  | .error e => .error e
  | .ok host =>
    .ok { host := if host.isEmpty then none
                  else some (String.mk (host.map Char.toLower)),
          path := pathOf (r.drop (r.takeWhile notHostEnd).length) }

/-- `urllib3.util.parse_url`.  Shape of urllib3 1.26: an input with no
leading `<scheme>:` (per `SCHEME_RE`, any scheme, case-insensitive) and no
leading `/` gets `//` prepended, so it is parsed as an authority; a
`scheme://` prefix is stripped before the authority; `scheme:` without
`//`, and a single leading `/`, leave the authority (hence the host)
absent.  A `LocationParseError` (a `ValueError`) from the port check is the
error case.  Bracketed IPv6 hosts and percent-encoding are out of scope:
such hosts never equal the storefront host and error or mismatch in both
the source and the model. -/
def parse_url (s : String) : Except PyErr PyUrl :=
  match s.data with
  | [] => .ok { host := none, path := none }
  | c0 :: rest =>
    if c0.isAlpha then
      match rest.dropWhile isSchemeChar with
      | ':' :: '/' :: '/' :: r => parseAuthority r
      | ':' :: r => .ok { host := none, path := pathOf r }
      | _ => parseAuthority (c0 :: rest)
    else if c0 == '/' then
      match rest with
      | '/' :: r => parseAuthority r
      | _ => .ok { host := none, path := pathOf (c0 :: rest) }
    else
      parseAuthority (c0 :: rest)

/-- Python `str.split(sep)` for a one-character separator. -/
def splitOnChar (c : Char) : List Char → List (List Char)
  | [] => [[]]
  | x :: xs =>
    match splitOnChar c xs with
    | h :: t => if x == c then [] :: h :: t else (x :: h) :: t
    | [] => [[]]

/-- A nonempty segment all of whose characters satisfy `p`. -/
def segAll (p : Char → Bool) (seg : List Char) : Bool :=
  !seg.isEmpty && seg.all p

/-- Characters of the locale class `[a-z\-]`. -/
def isLocaleChar (c : Char) : Bool := c.isLower || c == '-'

/-- `re.fullmatch(r'/[a-z\-]+/(concept/\d+|product/[\w\d-]+)', path)` as a
Boolean, via splitting on `/`: the path must be exactly
`/locale/concept/digits` or `/locale/product/token`. -/
def pathMatch (p : String) : Bool :=
  match splitOnChar '/' p.data with
  | [a, loc, kind, idseg] =>
    a.isEmpty && segAll isLocaleChar loc &&
      ((kind == "concept".data && segAll Char.isDigit idseg) ||
       (kind == "product".data && segAll isWordHyphenChar idseg))
  | _ => false

/-- `game_url.path.split('/')[-1]`. -/
def lastSegment (p : String) : String :=
  String.mk ((splitOnChar '/' p.data).getLastD [])

/-- Lines 214-225 of models.py: the raw `game_id` is either a bare token, or
a storefront URL that is reduced to its trailing path segment; anything else
raises `ValueError` — except one collapsed-looking case that is faithfully a
crash: the source tests `game_url.host != PSN_URL or not fullmatch(...,
game_url.path)` with Python's short-circuiting `or`, so when the host does
equal the storefront host but the URL has no path (`path is None`, e.g.
`https://store.playstation.com`), `re.fullmatch` receives `None` and raises
an uncaught `TypeError`.  A `LocationParseError` raised by `parse_url`
itself propagates unchanged (it is a `ValueError` subclass). -/
def normalize_game_id (raw : String) : Except PyErr String :=
  if bareTokenMatch raw then .ok raw
  else
    match parse_url raw with
    | .error e => .error e
    | .ok u =>
      if u.host != some PSN_URL then .error (.valueError "bad url")
      else
        match u.path with
        | none => .error .crash
        | some p =>
          if pathMatch p then .ok (lastSegment p)
          else .error (.valueError "bad url")

/-- The identifier kind implied by `game_id.isnumeric()` (lines 226-229). -/
inductive IdKind where
  | concept
  | product
deriving DecidableEq, Repr

def classify_id (gid : String) : IdKind :=
  if isNumericPy gid then .concept else .product

/-- A row of the `games` table.  `id` is the uuid primary key (modelled as a
number drawn from `DB.nextId`). -/
structure GameRow where
  id : Nat
  name : String
  concept_id : Option String
  product_id : Option String
  poster_url : Option String
deriving DecidableEq, Repr

/-- A row of the `prices` table.  Dates and timestamps are integers. -/
structure PriceRow where
  id : Nat
  game_id : Nat
  check_date : Int
  locale : String
  original_price : Int
  sale_price : Option Int
  valid_until : Option Int
  edition : Option String
  currency : Option String
deriving DecidableEq, Repr

structure UserRow where
  id : String
deriving DecidableEq, Repr

structure WishRow where
  id : Nat
  user_id : String
  game_id : Nat
deriving DecidableEq, Repr

/-- The database state. -/
structure DB where
  games : List GameRow
  prices : List PriceRow
  users : List UserRow
  wishes : List WishRow
  nextId : Nat
deriving DecidableEq, Repr

def emptyDB : DB := { games := [], prices := [], users := [], wishes := [], nextId := 0 }

/-- `Query.one_or_none`: `none` for no match, the row for exactly one match,
`MultipleResultsFound` otherwise. -/
def one_or_none {α : Type} (p : α → Bool) (l : List α) : Except PyErr (Option α) :=
  match l.filter p with
  | [] => .ok none
  | [a] => .ok (some a)
  | _ :: _ :: _ => .error .multipleResults

/-! ## The extracted product record (models.py lines 193-198)

`Game.get_game_info` returns a dict with exactly the keys `name`,
`poster_url`, `editions` and `concept_id`.  Note that it does **not** carry a
`product_id` key: `game_info.get('product_id')` in `Game.get_or_create` is
always `None`. -/

/-- One value of the `editions` dict: all four keys are always present. -/
structure EditionInfo where
  original_price : Int
  sale_price : Int
  valid_until : Int
  currency : String
deriving DecidableEq, Repr

structure GameInfo where
  name : String
  poster_url : String
  editions : List (String × EditionInfo)
  concept_id : String
deriving DecidableEq, Repr

/-- The network-and-parse part of `Game.get_game_info` as a pure oracle:
identifier kind and value to extraction outcome. -/
def Fetch : Type := IdKind → String → Except ExtractErr GameInfo

/-! ## Price recorder (models.py lines 336-375) -/

/-- The `Price` rows built in the loop of `Price.update_price`: one row per
edition, primary keys freshly generated (`base + index` models `uuid4`),
`check_date` set to today. -/
def seededRows (gid : Nat) (today : Int) (locale : String) (base : Nat)
    (eds : List (String × EditionInfo)) : List PriceRow :=
  eds.enum.map (fun ie =>
    { id := base + ie.1, game_id := gid, check_date := today, locale := locale,
      original_price := ie.2.2.original_price, sale_price := some ie.2.2.sale_price,
      valid_until := some ie.2.2.valid_until, edition := some ie.2.1,
      currency := some ie.2.2.currency })

/-- How an extractor exception propagates when nothing catches it. -/
def liftExtract : ExtractErr → PyErr
  | .stopIteration => .stopIteration
  | .valueError => .valueError "invalid literal"
  | .crash => .crash

/-- `Price.update_price` (lines 336-358): loads the game by primary key
(`game` being `None` would make `game.concept_id` an `AttributeError`),
re-fetches the record when `game_info` was not supplied, and then
`session.merge`s one fresh-keyed `Price` row per edition.  Because the merged
objects carry brand-new uuid primary keys and the `UniqueConstraint` named
`game_date_locale_edition` is a plain class attribute (never installed on the
table), each merge is an insert. -/
def price_update_price (fetch : Fetch) (today : Int) (db : DB) (game_id : Nat)
    (locale : String) (game_info : Option GameInfo) : Except PyErr DB :=
  match one_or_none (fun g => g.id == game_id) db.games with
  | .error e => .error e
  | .ok none => .error .crash
  | .ok (some g) =>
    let infoE : Except PyErr GameInfo :=
      match game_info with
      | some i => .ok i
      | none =>
        match g.concept_id with
        | none => .error (.valueError "an id argument is needed")
        | some c =>
          match fetch .concept c with
          | .ok i => .ok i
          | .error e => .error (liftExtract e)
    match infoE with
    | .error e => .error e
    | .ok info =>
      .ok { db with
            prices := db.prices ++ seededRows game_id today locale db.nextId info.editions,
            nextId := db.nextId + info.editions.length }

/-- The filter of `Price.update_prices` (lines 367-372): the outer join of
`games` with `prices` keeps a game iff it has no price row at all (the
`check_date == None` disjunct) or at least one joined price row with
`check_date < today`.  Note this is not "latest snapshot older than today":
one old row suffices even if a row for today also exists. -/
def staleGame (prices : List PriceRow) (today : Int) (g : GameRow) : Bool :=
  let ps := prices.filter (fun p => p.game_id == g.id)
  ps.isEmpty || ps.any (fun p => p.check_date < today)

/-- The `for` loop of `Price.update_prices`: no `try` around the body, so the
first exception aborts the whole sweep (and `session_scope` rolls the
transaction back). -/
def updatePricesGo (fetch : Fetch) (today : Int) : List Nat → DB → Except PyErr DB
  | [], acc => .ok acc
  | gid :: rest, acc =>
    match price_update_price fetch today acc gid "ru-ru" none with
    | .error e => .error e
    | .ok acc2 => updatePricesGo fetch today rest acc2

/-- `Price.update_prices` (lines 360-375).  The function returns `None` in
Python; here the `DB` of the committed transaction is returned so that the
effect can be stated, but no count of refreshed entries exists. -/
def price_update_prices (fetch : Fetch) (today : Int) (db : DB) : Except PyErr DB :=
  updatePricesGo fetch today
    ((db.games.filter (staleGame db.prices today)).map (fun g => g.id)) db

/-! ## Catalog reconciler: `Game.get_or_create` (models.py lines 205-265) -/

/-- The lookup `Game.get(**{id_type: game_id})` of line 231. -/
def ownMatch (kind : IdKind) (gid : String) (g : GameRow) : Bool :=
  match kind with
  | .concept => g.concept_id == some gid
  | .product => g.product_id == some gid

/-- SQL equality of two nullable columns: `NULL = anything` is not true. -/
def sqlEqOpt : Option String → Option String → Bool
  | some a, some b => a == b
  | _, _ => false

/-- `min([a, b], key=len)`: the second element wins only when strictly
shorter; ties keep the first (the stored name). -/
def minByLen (a b : String) : String :=
  if b.length < a.length then b else a

/-- The row transformation of the bulk `UPDATE` in the merge branch
(lines 259-264): every row whose `concept_id` equals the found game's gets
the merged name. -/
def nameUpdate (cid : Option String) (nm : String) (r : GameRow) : GameRow :=
  if sqlEqOpt r.concept_id cid then { r with name := nm } else r

/-- `Game.get_or_create`.  Structure, following the source:
1. normalize `game_id` (may raise `ValueError`);
2. look up by the identifier's own column; hit returns `(game, False)`;
3. otherwise call the extractor; `StopIteration`/`ValueError` become a
   user-facing `ValueError`, anything else propagates;
4. look up by the record's `concept_id`;
   if found, update the stored name of every row with that `concept_id` to
   `min([existing, candidate], key=len)` in a fresh session and return
   `(game, False)` (the returned object still carries the pre-update name);
5. otherwise `Game.create` with `product_id=None` (the record has no
   `product_id` key), the record's `concept_id`, `name` and `poster_url`
   (`create` re-queries with exactly these values first), then seed prices
   via `Price.update_price` and return `(game, was_created)`.
The `if game_info:` guard of line 244 is always true, because the record
dict always has four keys; its `else` branch is unreachable and omitted. -/
def game_get_or_create (fetch : Fetch) (today : Int) (db : DB) (raw : String) :
    Except PyErr (GameRow × Bool × DB) :=
  match normalize_game_id raw with
  | .error e => .error e
  | .ok gid =>
    let kind := classify_id gid
    match one_or_none (ownMatch kind gid) db.games with
    | .error e => .error e
    | .ok (some g) => .ok (g, false, db)
    | .ok none =>
      match fetch kind gid with
      | .error .stopIteration => .error (.valueError "unknown game id")
      | .error .valueError => .error (.valueError "unknown game id")
      | .error .crash => .error .crash
      | .ok info =>
        match one_or_none (fun g => g.concept_id == some info.concept_id) db.games with
        | .error e => .error e
        | .ok (some g) =>
          let newName := minByLen g.name info.name
          .ok (g, false,
            { db with games := db.games.map (fun r =>
                if sqlEqOpt r.concept_id g.concept_id then { r with name := newName } else r) })
        | .ok none =>
          match one_or_none (fun g =>
              g.product_id == none && g.concept_id == some info.concept_id &&
              g.name == info.name && g.poster_url == some info.poster_url) db.games with
          | .error e => .error e
          | .ok (some g) =>
            match price_update_price fetch today db g.id "ru-ru" (some info) with
            | .error e => .error e
            | .ok db2 => .ok (g, false, db2)
          | .ok none =>
            let g : GameRow :=
              { id := db.nextId, name := info.name, concept_id := some info.concept_id,
                product_id := none, poster_url := some info.poster_url }
            let db1 : DB := { db with games := db.games ++ [g], nextId := db.nextId + 1 }
            match price_update_price fetch today db1 g.id "ru-ru" (some info) with
            | .error e => .error e
            | .ok db2 => .ok (g, true, db2)

/-! ## Wishlist ledger (models.py lines 271-319) -/

/-- `User.get_or_create(id=user_id)`: `BaseModel.get_or_create` queries,
and on a miss `BaseModel.create` queries once more before inserting. -/
def user_get_or_create (db : DB) (uid : String) : Except PyErr (UserRow × Bool × DB) :=
  match one_or_none (fun u => u.id == uid) db.users with
  | .error e => .error e
  | .ok (some u) => .ok (u, false, db)
  | .ok none =>
    match one_or_none (fun u => u.id == uid) db.users with
    | .error e => .error e
    | .ok (some u) => .ok (u, false, db)
    | .ok none => .ok (⟨uid⟩, true, { db with users := db.users ++ [⟨uid⟩] })

/-- The two shapes `Wish.delete` can return: the integer row count from
`query.delete()`, or the literal pair `(None, False)`. -/
inductive DeleteResult where
  | count (n : Nat)
  | nonePair
deriving DecidableEq, Repr

/-- `Wish.delete` (lines 302-319): resolves the user and — via the full
`Game.get_or_create`, network fetch included — the game, and only then
deletes matching wish rows, provided neither the user nor the game was
created just now. -/
def wish_delete (fetch : Fetch) (today : Int) (db : DB) (user_id : String)
    (raw : String) : Except PyErr (DeleteResult × DB) :=
  match user_get_or_create db user_id with
  | .error e => .error e
  | .ok (u, userCreated, db1) =>
    match game_get_or_create fetch today db1 raw with
    | .error e => .error e
    | .ok (g, gameCreated, db2) =>
      if !(userCreated || gameCreated) then
        let remaining := db2.wishes.filter (fun w => !(w.user_id == u.id && w.game_id == g.id))
        .ok (.count (db2.wishes.length - remaining.length), { db2 with wishes := remaining })
      else
        .ok (.nonePair, db2)

/-! ## Page extractor: `Game.get_game_info` (models.py lines 128-203)

The function is embedded over an abstract already-fetched `Page`.  JSON
values are represented by structures whose `Option` fields model optional
dict keys; reading a missing required key is a `KeyError` (`crash`).
Chains of required intermediate keys that the source only traverses
(`['local']['telemetryMeta']['skuDetail']`, the `['props']…['text']` chain of
the `__NEXT_DATA__` fallback) are collapsed into one field; a missing link
anywhere in such a chain is the same `crash`.  Cache keys are stored without
their `Concept:`/`Product`/`GameCTA:` prefixes. -/

structure MediaItem where
  role : String
  url : String
deriving DecidableEq, Repr

/-- A `Concept:<id>` cache entry, restricted to the keys the source reads. -/
structure ConceptEntry where
  name : Option String
  media : Option (List MediaItem)
deriving DecidableEq, Repr

structure EditionObj where
  name : Option String
deriving DecidableEq, Repr

/-- An element of `webctas`/`skus`: only `__ref` is read. -/
structure RefObj where
  refId : Option String
deriving DecidableEq, Repr

/-- A `Product…` cache entry, restricted to the keys the source reads. -/
structure ProductEntry where
  name : Option String
  edition : Option EditionObj
  activeCtaId : Option String
  webctas : Option (List RefObj)
  skus : Option (List RefObj)
deriving DecidableEq, Repr

/-- `data[id_]['price']['endTime']`: `none` models JSON `null` (falsy, so
`endTime or 10**14` picks the default); a numeric string converts with
`int`; anything else makes `int` raise `ValueError`. -/
inductive EndTimeVal where
  | numeric (n : Int)
  | malformed
deriving DecidableEq, Repr

/-- A `GameCTA:<id>` cache entry, restricted to the fields the source reads;
`skuPriceDetail` pairs are `(originalPriceValue, discountPriceValue)`. -/
structure CtaEntry where
  skuPriceDetail : Option (List (Int × Int))
  endTime : Option (Option EndTimeVal)
  currencyCode : Option String
deriving DecidableEq, Repr

/-- The `'cache'` object of the embedded JSON blob, split by key prefix
(`Concept:`, `Product`, `GameCTA:`), each class in page order. -/
structure Cache where
  concepts : List (String × ConceptEntry)
  products : List (String × ProductEntry)
  ctas : List (String × CtaEntry)
deriving DecidableEq, Repr

/-- What `loads(next(node.children))['cache']` can run into. -/
inductive Blob where
  | invalid
  | noCache
  | withCache (c : Cache)
deriving DecidableEq, Repr

/-- The `__NEXT_DATA__` fallback chain of lines 185-190, collapsed:
`invalid` is a `json.loads` failure anywhere in the chain
(`JSONDecodeError` is a `ValueError`); `badShape` is a missing key or
missing `<script>` node (`KeyError`/`AttributeError`); `cacheConcepts` is
the final `['cache']` with its `Concept:` entries. -/
inductive NextBlob where
  | invalid
  | badShape
  | cacheConcepts (l : List (String × ConceptEntry))
deriving DecidableEq, Repr

/-- An abstract fetched page.  For the two payload selectors, `none` means
the CSS selector matched nothing (`select_one` returned `None`); `some none`
means the node exists but has no child (`next(node.children)` raises
`StopIteration`); `some (some b)` is the node's first child parsed as `b`. -/
structure Page where
  upsellsNode : Option (Option Blob)
  ctaNode : Option (Option Blob)
  nextData : Option NextBlob
deriving DecidableEq, Repr

/-- Python `str.replace` (all occurrences, nonempty pattern), with fuel. -/
def replaceAux (pat rep : List Char) : Nat → List Char → List Char
  | 0, l => l
  | _ + 1, [] => []
  | fuel + 1, x :: xs =>
    match dropLeading pat (x :: xs) with
    | some rest => rep ++ replaceAux pat rep fuel rest
    | none => x :: replaceAux pat rep fuel xs

def pyReplace (s pat rep : String) : String :=
  if pat.data.isEmpty then s
  else String.mk (replaceAux pat.data rep.data s.data.length s.data)

/-- The key expression of the `id_name` comprehension (lines 162-167).
Python evaluates default arguments eagerly, so `v['skus']` (a `KeyError`
when absent), the `[0]` index and the `['__ref']` access run even when
`activeCtaId` or `webctas` is present. -/
def productCtaKey (v : ProductEntry) : Except ExtractErr String :=
  match v.skus with
  | none => .error .crash
  | some skus =>
    match v.webctas.getD skus with
    | [] => .error .crash
    | r :: _ =>
      match r.refId with
      | none => .error .crash
      | some s =>
        .ok (v.activeCtaId.getD (pyReplace (pyReplace s "Sku" "") "GameCTA" ""))

/-- The value expression `v.get('edition', v)['name']` of line 168. -/
def productEditionName (v : ProductEntry) : Except ExtractErr String :=
  match v.edition with
  | some e =>
    match e.name with
    | some n => .ok n
    | none => .error .crash
  | none =>
    match v.name with
    | some n => .ok n
    | none => .error .crash

/-- Insertion into a dict built by a comprehension: a repeated key keeps its
first position but takes the latest value. -/
def dictInsert {α : Type} (l : List (String × α)) (k : String) (v : α) :
    List (String × α) :=
  if l.any (fun p => p.1 == k) then
    l.map (fun p => if p.1 == k then (k, v) else p)
  else l ++ [(k, v)]

/-- One value of the `id_data` comprehension (lines 172-181). -/
def ctaEdition (c : CtaEntry) : Except ExtractErr EditionInfo :=
  match c.skuPriceDetail with
  | none => .error .crash
  | some [] => .error .crash
  | some (x :: _) =>
    match c.endTime with
    | none => .error .crash
    | some et =>
      match (match et with
             | none => Except.ok ((10 : Int) ^ 14)
             | some (.numeric n) => Except.ok n
             | some .malformed => Except.error ExtractErr.valueError) with
      | .error e => .error e
      | .ok ts =>
        match c.currencyCode with
        | none => .error .crash
        | some cur =>
          .ok { original_price := x.1.fdiv 100, sale_price := x.2.fdiv 100,
                valid_until := ts.fdiv 1000, currency := cur }

/-- Builds the `id_name` dict of lines 161-170. -/
def buildIdName : List (String × ProductEntry) → List (String × String) →
    Except ExtractErr (List (String × String))
  | [], acc => .ok acc
  | (_, v) :: rest, acc =>
    match productCtaKey v with
    | .error e => .error e
    | .ok key =>
      match productEditionName v with
      | .error e => .error e
      | .ok ename => buildIdName rest (dictInsert acc key ename)

/-- Builds the `id_data` dict of lines 172-181: editions for the CTA ids
actually present in the cache (`if id_ in data`). -/
def buildIdData (ctas : List (String × CtaEntry)) :
    List (String × String) → List (String × EditionInfo) →
    Except ExtractErr (List (String × EditionInfo))
  | [], acc => .ok acc
  | (key, ename) :: rest, acc =>
    match ctas.find? (fun p => p.1 == key) with
    | none => buildIdData ctas rest acc
    | some p =>
      match ctaEdition p.2 with
      | .error e => .error e
      | .ok e => buildIdData ctas rest (dictInsert acc ename e)

/-- Line 159, `next(key for key in data if key.startswith('Concept:'))`:
the first `Concept:` key of the cache, or `StopIteration`. -/
def firstConceptKey (cache : Cache) : Except ExtractErr String :=
  match cache.concepts with
  | [] => .error .stopIteration
  | (k, _) :: _ => .ok k

/-- Line 159, `concept_id = concept_id or next(...)`: an absent or empty
(falsy) argument falls back to the first `Concept:` key. -/
def resolveConceptId (concept_id? : Option String) (cache : Cache) :
    Except ExtractErr String :=
  match concept_id? with
  | some c => if c.isEmpty then firstConceptKey cache else .ok c
  | none => firstConceptKey cache

/-- `Game.get_game_info`, over an abstract page (lines 128-203).  The URL
construction of lines 141-147 only selects which page is fetched; `page` is
that page.  Strategy order (lines 154-156): the `pdp-upsells` blob first,
then the `pdp-cta` script; if both selectors return `None`, the code runs
`next(None.children)` — an uncaught `AttributeError`. -/
def get_game_info_page (page : Page) (concept_id? product_id? : Option String) :
    Except ExtractErr GameInfo :=
  if concept_id?.isNone && product_id?.isNone then
    .error .valueError
  else
    match page.upsellsNode.orElse (fun _ => page.ctaNode) with
    | none => .error .crash
    | some none => .error .stopIteration
    | some (some .invalid) => .error .valueError
    | some (some .noCache) => .error .crash
    | some (some (.withCache cache)) =>
      match resolveConceptId concept_id? cache with
      | .error e => .error e
      | .ok concept_id =>
        match buildIdName cache.products [] with
        | .error e => .error e
        | .ok id_name =>
          match buildIdData cache.ctas id_name [] with
          | .error e => .error e
          | .ok id_data =>
            match cache.concepts.find? (fun p => p.1 == concept_id) with
            | none => .error .crash
            | some conc0 =>
              match ((match conc0.2.media with
                     | some _ => Except.ok conc0.2
                     | none =>
                       match page.nextData with
                       | none => .error .crash
                       | some .invalid => .error .valueError
                       | some .badShape => .error .crash
                       | some (.cacheConcepts l) =>
                         match l.find? (fun p => p.1 == concept_id) with
                         | none => .error .crash
                         | some p => .ok p.2) :
                       Except ExtractErr ConceptEntry) with
              | .error e => .error e
              | .ok concept_info =>
                match cache.products with
                | [] => .error .stopIteration
                | (_, product_info) :: _ =>
                  match product_info.name with
                  | none => .error .crash
                  | some pname =>
                    match concept_info.media with
                    | none => .error .crash
                    | some media =>
                      match media.find? (fun x => x.role == "MASTER") with
                      | none => .error .stopIteration
                      | some x =>
                        .ok { name := concept_info.name.getD pname,
                              poster_url := x.url,
                              editions := id_data,
                              concept_id := concept_id }

/-! ## Database invariant

The schema declares `concept_id` and `product_id` unique (nullable), and the
uuid primary keys are distinct.  `DB.Inv` states this together with the
freshness of `nextId`, which models that `uuid4` never collides with an
existing key. -/

def rowDistinct (a b : GameRow) : Prop :=
  a.id ≠ b.id ∧
  (a.concept_id = none ∨ a.concept_id ≠ b.concept_id) ∧
  (a.product_id = none ∨ a.product_id ≠ b.product_id)

def DB.Inv (db : DB) : Prop :=
  (∀ g ∈ db.games, g.id < db.nextId) ∧ db.games.Pairwise rowDistinct

/-- The row `Game.create` inserts in the create branch (lines 245-251):
`product_id` is always `None` because the extracted record has no such key. -/
def createdRow (db : DB) (info : GameInfo) : GameRow :=
  { id := db.nextId, name := info.name, concept_id := some info.concept_id,
    product_id := none, poster_url := some info.poster_url }

def dbAfterCreate (db : DB) (today : Int) (info : GameInfo) : DB :=
  { db with
    games := db.games ++ [createdRow db info],
    prices := db.prices ++ seededRows db.nextId today "ru-ru" (db.nextId + 1) info.editions,
    nextId := db.nextId + 1 + info.editions.length }

/-! ## Concrete fixtures used by counterexamples and witnesses -/

/-- A record as `Game.get_game_info` returns it: note there is no
`product_id` field to carry. -/
def exInfo : GameInfo :=
  { name := "Valhalla", poster_url := "poster-url",
    editions := [("Standard", { original_price := 4999, sale_price := 2999,
                                valid_until := 1700000000, currency := "RUB" })],
    concept_id := "100" }

/-- An extractor oracle that always finds `exInfo`. -/
def exFetch : Fetch := fun _ _ => .ok exInfo

def gameRow100 : GameRow :=
  { id := 0, name := "Valhalla", concept_id := some "100", product_id := none,
    poster_url := some "poster-url" }

def dbOneGame : DB :=
  { games := [gameRow100], prices := [], users := [], wishes := [], nextId := 1 }

/-- A page on which both payload selectors match nothing (an unrecognized
or error page layout). -/
def pageNoPayload : Page := { upsellsNode := none, ctaNode := none, nextData := none }

/-- A second extraction pass for concept `100` yielding an empty name. -/
def infoEmptyName : GameInfo :=
  { name := "", poster_url := "poster-2", editions := [], concept_id := "100" }

def fetchEmptyName : Fetch := fun _ _ => .ok infoEmptyName

def gameRow200 : GameRow :=
  { id := 1, name := "Bastion", concept_id := some "200", product_id := none,
    poster_url := some "poster-b" }

/-- Two catalog entries, both without any snapshot (stale). -/
def dbTwoStale : DB :=
  { games := [gameRow100, gameRow200], prices := [], users := [], wishes := [], nextId := 2 }

/-- Extraction fails for concept `100` (the first stale entry) and would
succeed for every other identifier. -/
def fetchFailFirst : Fetch :=
  fun _ c => if c == "100" then .error .stopIteration else .ok exInfo

lemma rowDistinct_symm : Symmetric rowDistinct := by
  intro a b hab
  obtain ⟨h1, h2, h3⟩ := hab
  refine ⟨fun h => h1 h.symm, ?_, ?_⟩
  · by_cases hb : b.concept_id = none
    · exact Or.inl hb
    · refine Or.inr (fun hcb => ?_)
      rcases h2 with h | h
      · rw [h] at hcb; exact hb hcb
      · exact h hcb.symm
  · by_cases hb : b.product_id = none
    · exact Or.inl hb
    · refine Or.inr (fun hcb => ?_)
      rcases h3 with h | h
      · rw [h] at hcb; exact hb hcb
      · exact h hcb.symm

lemma DB.Inv.distinct {db : DB} (hdb : db.Inv) {a b : GameRow}
    (ha : a ∈ db.games) (hb : b ∈ db.games) (hne : a ≠ b) : rowDistinct a b :=
  List.Pairwise.forall rowDistinct_symm hdb.2 ha hb hne

/-- Under the invariant, two rows sharing a present `concept_id` coincide. -/
lemma DB.Inv.concept_unique {db : DB} (hdb : db.Inv) {a b : GameRow} {c : String}
    (ha : a ∈ db.games) (hb : b ∈ db.games)
    (hac : a.concept_id = some c) (hbc : b.concept_id = some c) : a = b := by
  by_contra hne
  rcases hdb.distinct ha hb hne with ⟨_, h, _⟩
  rcases h with h | h
  · rw [hac] at h; cases h
  · exact h (hac.trans hbc.symm)

/-- Under the invariant, two rows sharing a present `product_id` coincide. -/
lemma DB.Inv.product_unique {db : DB} (hdb : db.Inv) {a b : GameRow} {c : String}
    (ha : a ∈ db.games) (hb : b ∈ db.games)
    (hac : a.product_id = some c) (hbc : b.product_id = some c) : a = b := by
  by_contra hne
  rcases hdb.distinct ha hb hne with ⟨_, _, h⟩
  rcases h with h | h
  · rw [hac] at h; cases h
  · exact h (hac.trans hbc.symm)

lemma DB.Inv.id_unique {db : DB} (hdb : db.Inv) {a b : GameRow}
    (ha : a ∈ db.games) (hb : b ∈ db.games) (hid : a.id = b.id) : a = b := by
  by_contra hne
  exact (hdb.distinct ha hb hne).1 hid

lemma DB.Inv.nodup {db : DB} (hdb : db.Inv) : db.games.Nodup :=
  hdb.2.imp (fun h => by rintro rfl; exact h.1 rfl)

lemma DB.Inv.id_ne_next {db : DB} (hdb : db.Inv) {g : GameRow} (hg : g ∈ db.games) :
    g.id ≠ db.nextId :=
  Nat.ne_of_lt (hdb.1 g hg)

/-! ## `one_or_none` and filter helpers -/

lemma one_or_none_of_filter_nil {α : Type} {p : α → Bool} {l : List α}
    (h : l.filter p = []) : one_or_none p l = .ok none := by
  unfold one_or_none; rw [h]

lemma one_or_none_of_forall {α : Type} {p : α → Bool} {l : List α}
    (h : ∀ a ∈ l, p a = false) : one_or_none p l = .ok none :=
  one_or_none_of_filter_nil (List.filter_eq_nil_iff.mpr (by simpa using h))

lemma one_or_none_of_filter_singleton {α : Type} {p : α → Bool} {l : List α} {g : α}
    (h : l.filter p = [g]) : one_or_none p l = .ok (some g) := by
  unfold one_or_none; rw [h]

/-- A filter that can only accept one designated element of a duplicate-free
list returns exactly that element. -/
lemma filter_eq_singleton_of_unique {α : Type} {p : α → Bool} {l : List α} {g : α}
    (hnd : l.Nodup) (hg : g ∈ l) (hpg : p g = true)
    (huniq : ∀ a ∈ l, p a = true → a = g) :
    l.filter p = [g] := by
  induction l with
  | nil => cases hg
  | cons x xs ih =>
    rcases List.nodup_cons.mp hnd with ⟨hx_nmem, hnd'⟩
    rcases List.mem_cons.mp hg with rfl | hgx
    · rw [List.filter_cons_of_pos hpg]
      have : xs.filter p = [] := by
        refine List.filter_eq_nil_iff.mpr (fun a ha hpa => ?_)
        have := huniq a (List.mem_cons_of_mem _ ha) hpa
        exact hx_nmem (this ▸ ha)
      rw [this]
    · have hpx : ¬ p x = true := by
        intro hpx
        have := huniq x (List.mem_cons_self _ _) hpx
        exact hx_nmem (this ▸ hgx)
      rw [List.filter_cons_of_neg hpx]
      exact ih hnd' hgx (fun a ha hpa => huniq a (List.mem_cons_of_mem _ ha) hpa)

/-! ## Evaluation lemmas for the three paths of `Game.get_or_create` -/

lemma goc_hit (fetch : Fetch) (today : Int) (db : DB) (raw gid : String) (g : GameRow)
    (hnorm : normalize_game_id raw = .ok gid)
    (hfilter : db.games.filter (ownMatch (classify_id gid) gid) = [g]) :
    game_get_or_create fetch today db raw = .ok (g, false, db) := by
  unfold game_get_or_create
  simp only [hnorm, one_or_none_of_filter_singleton hfilter]

lemma goc_merge (fetch : Fetch) (today : Int) (db : DB) (raw gid : String)
    (info : GameInfo) (g : GameRow)
    (hnorm : normalize_game_id raw = .ok gid)
    (hown : ∀ a ∈ db.games, ownMatch (classify_id gid) gid a = false)
    (hfetch : fetch (classify_id gid) gid = .ok info)
    (hconc : db.games.filter (fun a => a.concept_id == some info.concept_id) = [g]) :
    game_get_or_create fetch today db raw =
      .ok (g, false,
        { db with games :=
            db.games.map (nameUpdate g.concept_id (minByLen g.name info.name)) }) := by
  unfold game_get_or_create
  simp only [hnorm, one_or_none_of_forall hown, hfetch, one_or_none_of_filter_singleton hconc]
  rfl

lemma goc_create (fetch : Fetch) (today : Int) (db : DB) (raw gid : String) (info : GameInfo)
    (hnorm : normalize_game_id raw = .ok gid)
    (hown : ∀ a ∈ db.games, ownMatch (classify_id gid) gid a = false)
    (hfetch : fetch (classify_id gid) gid = .ok info)
    (hconc : ∀ a ∈ db.games, (a.concept_id == some info.concept_id) = false)
    (hid : ∀ a ∈ db.games, a.id ≠ db.nextId) :
    game_get_or_create fetch today db raw =
      .ok (createdRow db info, true, dbAfterCreate db today info) := by
  unfold game_get_or_create
  have hdup : ∀ a ∈ db.games,
      (a.product_id == none && a.concept_id == some info.concept_id &&
       a.name == info.name && a.poster_url == some info.poster_url) = false := by
    intro a ha
    simp [hconc a ha]
  have hfind : (db.games ++ [createdRow db info]).filter
      (fun g => g.id == db.nextId) = [createdRow db info] := by
    rw [List.filter_append]
    rw [List.filter_eq_nil_iff.mpr (fun a ha => by simp [hid a ha])]
    simp [createdRow]
  simp only [hnorm, one_or_none_of_forall hown, hfetch, one_or_none_of_forall hconc,
    one_or_none_of_forall hdup]
  show (match price_update_price fetch today
      { db with games := db.games ++ [createdRow db info], nextId := db.nextId + 1 }
      db.nextId "ru-ru" (some info) with
    | Except.error e => Except.error e
    | Except.ok db2 => Except.ok (createdRow db info, true, db2)) = _
  unfold price_update_price
  rw [one_or_none_of_filter_singleton hfind]
  rfl

/-! ## Claims settled on concrete inputs -/

/-- Claim C9 (code bug).  On a page where neither the `pdp-upsells` blob nor
the `pdp-cta` script exists, the extractor does not fail with the typed,
recoverable error (modelled by `ExtractErr.stopIteration`/`valueError`, the
two exceptions `Game.get_or_create` catches and surfaces as "item not
found"): it evaluates `next(None.children)` and dies with an uncaught
`AttributeError` (`ExtractErr.crash`). -/
theorem claim_C9_layout_crash :
    get_game_info_page pageNoPayload (some "100") none = .error .crash ∧
    ExtractErr.crash ≠ ExtractErr.stopIteration ∧
    ExtractErr.crash ≠ ExtractErr.valueError := by
  refine ⟨rfl, by decide, by decide⟩

/-- Claim C5, counterexample.  A later extraction pass for concept `100`
yields the empty candidate name; `min([existing, candidate], key=len)` picks
it, so the empty candidate does replace the non-empty stored name
`"Valhalla"`. -/
theorem claim_C5_counterexample :
    dbOneGame.games.map (fun g => g.name) = ["Valhalla"] ∧
    (match game_get_or_create fetchEmptyName 9 dbOneGame "ABC-1" with
     | .ok r => some (r.2.2.games.map (fun g => g.name))
     | .error _ => none) = some [""] := by
  exact ⟨rfl, rfl⟩

/-- Claim C8, counterexample.  With two stale entries and extraction failing
only for the first, the claim says the sweep skips the failure, refreshes
the second entry and returns the count `1`; the code has no per-entry
handler, so the exception aborts the whole sweep (and the transaction rolls
back): no entry is refreshed and no count exists. -/
theorem claim_C8_counterexample :
    price_update_prices fetchFailFirst 1 dbTwoStale = .error .stopIteration := by
  rfl

lemma ownMatch_false (kind : IdKind) (gid : String) (a : GameRow)
    (h1 : a.concept_id ≠ some gid) (h2 : a.product_id ≠ some gid) :
    ownMatch kind gid a = false := by
  cases kind <;> simp [ownMatch] <;> first | exact h1 | exact h2

lemma beq_opt_false {a b : Option String} (h : a ≠ b) : (a == b) = false :=
  beq_eq_false_iff_ne.mpr h

theorem claim_C2_resolve_idempotent
    (fetch : Fetch) (today : Int) (db : DB) (raw gid : String) (info : GameInfo)
    (hdb : db.Inv)
    (hnorm : normalize_game_id raw = .ok gid)
    (hfetch : fetch (classify_id gid) gid = .ok info)
    (hkind : classify_id gid = .concept → info.concept_id = gid)
    (hown : ∀ a ∈ db.games, a.concept_id ≠ some gid ∧ a.product_id ≠ some gid)
    (hconc : ∀ a ∈ db.games, a.concept_id ≠ some info.concept_id) :
    ∃ g1 db1 g2 c2 db2,
      game_get_or_create fetch today db raw = .ok (g1, true, db1) ∧
      game_get_or_create fetch today db1 raw = .ok (g2, c2, db2) ∧
      g2.id = g1.id ∧ c2 = false := by
  have hown' : ∀ a ∈ db.games, ownMatch (classify_id gid) gid a = false :=
    fun a ha => ownMatch_false _ _ _ (hown a ha).1 (hown a ha).2
  have hconc' : ∀ a ∈ db.games, (a.concept_id == some info.concept_id) = false :=
    fun a ha => beq_opt_false (hconc a ha)
  have hid : ∀ a ∈ db.games, a.id ≠ db.nextId := fun a ha => hdb.id_ne_next ha
  have h1 := goc_create fetch today db raw gid info hnorm hown' hfetch hconc' hid
  refine ⟨createdRow db info, dbAfterCreate db today info, ?_⟩
  cases hk : classify_id gid with
  | concept =>
    have hcg : info.concept_id = gid := hkind hk
    have hfilter : (dbAfterCreate db today info).games.filter
        (ownMatch (classify_id gid) gid) = [createdRow db info] := by
      show ((db.games ++ [createdRow db info]).filter _) = _
      rw [List.filter_append,
        List.filter_eq_nil_iff.mpr (fun a ha => by simp [hown' a ha]),
        List.nil_append]
      simp [hk, ownMatch, createdRow, hcg]
    exact ⟨createdRow db info, false, dbAfterCreate db today info,
      h1, goc_hit fetch today _ raw gid _ hnorm hfilter, rfl, rfl⟩
  | product =>
    have hown2 : ∀ a ∈ (dbAfterCreate db today info).games,
        ownMatch (classify_id gid) gid a = false := by
      intro a ha
      rcases List.mem_append.mp ha with ha | ha
      · exact hown' a ha
      · rcases List.mem_singleton.mp ha with rfl
        simp [hk, ownMatch, createdRow]
    have hconc2 : (dbAfterCreate db today info).games.filter
        (fun a => a.concept_id == some info.concept_id) = [createdRow db info] := by
      show ((db.games ++ [createdRow db info]).filter _) = _
      rw [List.filter_append,
        List.filter_eq_nil_iff.mpr (fun a ha => by simp [hconc' a ha]),
        List.nil_append]
      simp [createdRow]
    exact ⟨createdRow db info, false, _,
      h1, goc_merge fetch today _ raw gid info _ hnorm hown2 hfetch hconc2, rfl, rfl⟩

lemma seededRows_length (gid : Nat) (today : Int) (locale : String) (base : Nat)
    (eds : List (String × EditionInfo)) :
    (seededRows gid today locale base eds).length = eds.length := by
  simp [seededRows]

lemma nameUpdate_concept (cid : Option String) (nm : String) (r : GameRow) :
    (nameUpdate cid nm r).concept_id = r.concept_id := by
  by_cases h : sqlEqOpt r.concept_id cid <;> simp [nameUpdate, h]

lemma nameUpdate_product (cid : Option String) (nm : String) (r : GameRow) :
    (nameUpdate cid nm r).product_id = r.product_id := by
  by_cases h : sqlEqOpt r.concept_id cid <;> simp [nameUpdate, h]

lemma nameUpdate_id (cid : Option String) (nm : String) (r : GameRow) :
    (nameUpdate cid nm r).id = r.id := by
  by_cases h : sqlEqOpt r.concept_id cid <;> simp [nameUpdate, h]

lemma map_id_name_update (l : List GameRow) (cid : Option String) (nm : String) :
    (l.map (nameUpdate cid nm)).map (fun r => r.id) = l.map (fun r => r.id) := by
  induction l with
  | nil => rfl
  | cons x xs ih => simp [nameUpdate_id, ih]

theorem claim_C5_name_merge_amended
    (fetch : Fetch) (today : Int) (db : DB) (raw gid : String) (info : GameInfo) (g : GameRow)
    (hdb : db.Inv)
    (hnorm : normalize_game_id raw = .ok gid)
    (hown : ∀ a ∈ db.games, ownMatch (classify_id gid) gid a = false)
    (hfetch : fetch (classify_id gid) gid = .ok info)
    (hg : g ∈ db.games) (hgc : g.concept_id = some info.concept_id) :
    ∃ db2,
      game_get_or_create fetch today db raw = .ok (g, false, db2) ∧
      (∀ r ∈ db2.games, r.id = g.id → r.name = minByLen g.name info.name) ∧
      (info.name.length < g.name.length → minByLen g.name info.name = info.name) ∧
      (g.name.length ≤ info.name.length → minByLen g.name info.name = g.name) ∧
      db2.games.map (fun r => r.id) = db.games.map (fun r => r.id) := by
  have hfilter : db.games.filter (fun a => a.concept_id == some info.concept_id) = [g] := by
    refine filter_eq_singleton_of_unique hdb.nodup hg (by simp [hgc]) ?_
    intro a ha hpa
    exact hdb.concept_unique ha hg (by simpa using hpa) hgc
  refine ⟨_, goc_merge fetch today db raw gid info g hnorm hown hfetch hfilter, ?_, ?_, ?_, ?_⟩
  · intro r hr hrid
    simp only [List.mem_map] at hr
    obtain ⟨r0, hr0, rfl⟩ := hr
    by_cases hc : sqlEqOpt r0.concept_id g.concept_id
    · simp [nameUpdate, hc]
    · rw [nameUpdate_id] at hrid
      have : r0 = g := hdb.id_unique hr0 hg hrid
      subst this
      rw [hgc] at hc
      simp [sqlEqOpt] at hc
  · intro h; simp [minByLen, h]
  · intro h; simp [minByLen, Nat.not_lt.mpr h]
  · exact map_id_name_update _ _ _

lemma one_or_none_cases {α : Type} {p : α → Bool} {l : List α}
    (hnd : l.Nodup)
    (h : ∀ a ∈ l, ∀ b ∈ l, p a = true → p b = true → a = b) :
    one_or_none p l = .ok none ∨
    ∃ g, g ∈ l ∧ p g = true ∧ one_or_none p l = .ok (some g) := by
  cases hf : l.filter p with
  | nil => exact Or.inl (one_or_none_of_filter_nil hf)
  | cons x t =>
    have hx : x ∈ l.filter p := by rw [hf]; exact List.mem_cons_self _ _
    have hxl := List.mem_of_mem_filter hx
    have hpx := List.of_mem_filter hx
    refine Or.inr ⟨x, hxl, hpx, one_or_none_of_filter_singleton ?_⟩
    exact filter_eq_singleton_of_unique hnd hxl hpx
      (fun a ha hpa => h a ha x hxl hpa hpx)

lemma user_goc_spec (db : DB) (uid : String) (hnd : db.users.Nodup) :
    (∃ u, user_get_or_create db uid = .ok (u, false, db)) ∨
    user_get_or_create db uid =
      .ok (⟨uid⟩, true, { db with users := db.users ++ [⟨uid⟩] }) := by
  have h : ∀ a ∈ db.users, ∀ b ∈ db.users,
      (a.id == uid) = true → (b.id == uid) = true → a = b := by
    intro a _ b _ ha hb
    cases a; cases b
    simp_all
  rcases one_or_none_cases hnd h with h1 | ⟨u, _, _, h1⟩
  · right
    unfold user_get_or_create
    simp only [h1]
  · left
    refine ⟨u, ?_⟩
    unfold user_get_or_create
    simp only [h1]

theorem claim_C10_delete_grows_catalog
    (fetch : Fetch) (today : Int) (db : DB) (uid raw gid : String) (info : GameInfo)
    (hdb : db.Inv)
    (husers : db.users.Nodup)
    (hnorm : normalize_game_id raw = .ok gid)
    (hfetch : fetch (classify_id gid) gid = .ok info)
    (hown : ∀ a ∈ db.games, a.concept_id ≠ some gid ∧ a.product_id ≠ some gid)
    (hconc : ∀ a ∈ db.games, a.concept_id ≠ some info.concept_id)
    (heds : info.editions ≠ []) :
    ∃ db2,
      wish_delete fetch today db uid raw = .ok (.nonePair, db2) ∧
      db2.games.length = db.games.length + 1 ∧
      db.prices.length < db2.prices.length ∧
      db2.wishes = db.wishes := by
  have hown' : ∀ a ∈ db.games, ownMatch (classify_id gid) gid a = false :=
    fun a ha => ownMatch_false _ _ _ (hown a ha).1 (hown a ha).2
  have hconc' : ∀ a ∈ db.games, (a.concept_id == some info.concept_id) = false :=
    fun a ha => beq_opt_false (hconc a ha)
  have hid : ∀ a ∈ db.games, a.id ≠ db.nextId := fun a ha => hdb.id_ne_next ha
  have hlen : 0 < info.editions.length := List.length_pos.mpr heds
  rcases user_goc_spec db uid husers with ⟨u, hu⟩ | hu
  · have hgoc := goc_create fetch today db raw gid info hnorm hown' hfetch hconc' hid
    refine ⟨dbAfterCreate db today info, ?_, ?_, ?_, rfl⟩
    · unfold wish_delete
      simp only [hu, hgoc, Bool.or_true, Bool.not_true, Bool.false_eq_true, if_false]
    · show (db.games ++ [createdRow db info]).length = _
      simp
    · show db.prices.length <
        (db.prices ++ seededRows db.nextId today "ru-ru" (db.nextId + 1) info.editions).length
      rw [List.length_append, seededRows_length]
      omega
  · set dbU : DB := { db with users := db.users ++ [⟨uid⟩] } with hdbU
    have hgoc := goc_create fetch today dbU raw gid info hnorm hown' hfetch hconc' hid
    refine ⟨dbAfterCreate dbU today info, ?_, ?_, ?_, rfl⟩
    · unfold wish_delete
      simp only [hu, hgoc, Bool.true_or, Bool.not_true, Bool.false_eq_true, if_false]
    · show (db.games ++ [createdRow dbU info]).length = _
      simp
    · show db.prices.length <
        (db.prices ++ seededRows db.nextId today "ru-ru" (db.nextId + 1) info.editions).length
      rw [List.length_append, seededRows_length]
      omega

lemma filter_append_singleton_pos {α : Type} {p : α → Bool} {l : List α} {g : α}
    (hl : ∀ a ∈ l, p a = false) (hg : p g = true) : (l ++ [g]).filter p = [g] := by
  rw [List.filter_append, List.filter_eq_nil_iff.mpr (by simpa using hl),
    List.nil_append, List.filter_cons_of_pos hg]
  rfl

lemma filter_append_singleton_neg {α : Type} {p : α → Bool} {l : List α} {g : α}
    (hl : ∀ a ∈ l, p a = false) (hg : p g = false) : (l ++ [g]).filter p = [] := by
  rw [List.filter_append, List.filter_eq_nil_iff.mpr (by simpa using hl),
    List.nil_append, List.filter_cons_of_neg (by simp [hg])]
  rfl

/-- A filter whose acceptances are all equal, over a duplicate-free list,
returns nothing or a single row. -/
lemma filter_cases_of_unique {α : Type} {p : α → Bool} {l : List α}
    (hnd : l.Nodup)
    (h : ∀ a ∈ l, ∀ b ∈ l, p a = true → p b = true → a = b) :
    l.filter p = [] ∨ ∃ g, g ∈ l ∧ p g = true ∧ l.filter p = [g] := by
  by_cases hnil : l.filter p = []
  · exact Or.inl hnil
  · obtain ⟨x, hx⟩ := List.exists_mem_of_ne_nil _ hnil
    have hxl := List.mem_of_mem_filter hx
    have hpx := List.of_mem_filter hx
    exact Or.inr ⟨x, hxl, hpx,
      filter_eq_singleton_of_unique hnd hxl hpx (fun a ha hpa => h a ha x hxl hpa hpx)⟩

lemma bareToken_of_numeric {s : String} (h : isNumericPy s = true) :
    bareTokenMatch s = true := by
  unfold isNumericPy at h
  unfold bareTokenMatch
  rcases (Bool.and_eq_true _ _).mp h with ⟨h1, h2⟩
  refine (Bool.and_eq_true _ _).mpr ⟨h1, ?_⟩
  rw [List.all_eq_true] at h2 ⊢
  intro c hc
  have hd := h2 c hc
  simp [isWordHyphenChar, Char.isAlphanum, hd]

lemma normalize_of_token {s : String} (h : bareTokenMatch s = true) :
    normalize_game_id s = .ok s := by
  unfold normalize_game_id
  rw [h]
  rfl

lemma filter_concept_nameUpdate (l : List GameRow) (cid : Option String)
    (nm : String) (c : String) :
    (l.map (nameUpdate cid nm)).filter (fun a => a.concept_id == some c) =
      (l.filter (fun a => a.concept_id == some c)).map (nameUpdate cid nm) := by
  rw [List.filter_map]
  congr 1
  apply List.filter_congr
  intro a _
  simp [Function.comp, nameUpdate_concept]

theorem claim_C1_cross_namespace_dedup
    (fetch : Fetch) (today : Int) (db : DB) (P C : String) (ip ic : GameInfo)
    (hdb : db.Inv)
    (hP : bareTokenMatch P = true) (hPn : isNumericPy P = false)
    (hC : isNumericPy C = true)
    (hfp : fetch .product P = .ok ip) (hip : ip.concept_id = C)
    (hfc : fetch .concept C = .ok ic) (hic : ic.concept_id = C)
    (hcoh : ∀ g ∈ db.games, g.product_id = some P → g.concept_id = some C) :
    (∃ g1 c1 db1 g2 c2 db2,
      game_get_or_create fetch today db P = .ok (g1, c1, db1) ∧
      game_get_or_create fetch today db1 C = .ok (g2, c2, db2) ∧
      g2.id = g1.id ∧
      db2.games.map (fun r => r.id) = db1.games.map (fun r => r.id)) ∧
    (∃ g1 c1 db1 g2 c2 db2,
      game_get_or_create fetch today db C = .ok (g1, c1, db1) ∧
      game_get_or_create fetch today db1 P = .ok (g2, c2, db2) ∧
      g2.id = g1.id ∧
      db2.games.map (fun r => r.id) = db1.games.map (fun r => r.id)) := by
  subst hip
  have hnormP := normalize_of_token hP
  have hnormC := normalize_of_token (bareToken_of_numeric hC)
  have hkP : classify_id P = .product := by simp [classify_id, hPn]
  have hkC : classify_id ip.concept_id = .concept := by simp [classify_id, hC]
  have hfP : fetch (classify_id P) P = .ok ip := by rw [hkP]; exact hfp
  have hfC : fetch (classify_id ip.concept_id) ip.concept_id = .ok ic := by
    rw [hkC]; exact hfc
  have hidf : ∀ a ∈ db.games, a.id ≠ db.nextId := fun a ha => hdb.id_ne_next ha
  have hprodU : ∀ a ∈ db.games, ∀ b ∈ db.games,
      ownMatch (classify_id P) P a = true → ownMatch (classify_id P) P b = true →
      a = b := by
    intro a ha b hb hpa hpb
    rw [hkP] at hpa hpb
    simp only [ownMatch, beq_iff_eq] at hpa hpb
    exact hdb.product_unique ha hb hpa hpb
  have hconcU : ∀ a ∈ db.games, ∀ b ∈ db.games,
      (a.concept_id == some ip.concept_id) = true →
      (b.concept_id == some ip.concept_id) = true → a = b := by
    intro a ha b hb hpa hpb
    simp only [beq_iff_eq] at hpa hpb
    exact hdb.concept_unique ha hb hpa hpb
  constructor
  · -- order A: product first, then concept
    rcases filter_cases_of_unique (p := ownMatch (classify_id P) P) hdb.nodup hprodU
      with hmiss | ⟨g, hg, hpg, hsing⟩
    · have hownNil : ∀ a ∈ db.games, ownMatch (classify_id P) P a = false := by
        intro a ha
        simpa using List.filter_eq_nil_iff.mp hmiss a ha
      rcases filter_cases_of_unique (p := fun a => a.concept_id == some ip.concept_id)
          hdb.nodup hconcU with hcmiss | ⟨g, hg, hcg, hcsing⟩
      · -- A1: neither namespace catalogued yet
        have hconcNil : ∀ a ∈ db.games, (a.concept_id == some ip.concept_id) = false := by
          intro a ha
          simpa using List.filter_eq_nil_iff.mp hcmiss a ha
        have h1 := goc_create fetch today db P P ip hnormP hownNil hfP hconcNil hidf
        have hfilter2 : (dbAfterCreate db today ip).games.filter
            (ownMatch (classify_id ip.concept_id) ip.concept_id) = [createdRow db ip] := by
          rw [hkC]
          exact filter_append_singleton_pos (fun a ha => hconcNil a ha)
            (by simp [createdRow, ownMatch])
        have h2 := goc_hit fetch today (dbAfterCreate db today ip) ip.concept_id
          ip.concept_id (createdRow db ip) hnormC hfilter2
        exact ⟨_, _, _, _, _, _, h1, h2, rfl, rfl⟩
      · -- A2: concept already catalogued: merge, then hit on the updated row
        have h1 := goc_merge fetch today db P P ip g hnormP hownNil hfP hcsing
        have hgc : g.concept_id = some ip.concept_id := by simpa using hcg
        have hfilter2 :
            (db.games.map (nameUpdate g.concept_id (minByLen g.name ip.name))).filter
              (ownMatch (classify_id ip.concept_id) ip.concept_id) =
            [nameUpdate g.concept_id (minByLen g.name ip.name) g] := by
          rw [hkC]
          show (db.games.map (nameUpdate g.concept_id (minByLen g.name ip.name))).filter
              (fun a => a.concept_id == some ip.concept_id) = _
          rw [filter_concept_nameUpdate, hcsing]
          rfl
        have h2 := goc_hit fetch today
          { db with games := db.games.map (nameUpdate g.concept_id (minByLen g.name ip.name)) }
          ip.concept_id ip.concept_id
          (nameUpdate g.concept_id (minByLen g.name ip.name) g) hnormC hfilter2
        exact ⟨g, false, _, _, false, _, h1, h2, nameUpdate_id _ _ _, rfl⟩
    · -- A3: product id already catalogued: hit, then concept hit on the same row
      have h1 := goc_hit fetch today db P P g hnormP hsing
      have hgP : g.product_id = some P := by
        rw [hkP] at hpg
        simpa [ownMatch] using hpg
      have hgC : g.concept_id = some ip.concept_id := hcoh g hg hgP
      have hcsing : db.games.filter (fun a => a.concept_id == some ip.concept_id) = [g] :=
        filter_eq_singleton_of_unique hdb.nodup hg (by simp [hgC])
          (fun a ha hpa => hconcU a ha g hg hpa (by simp [hgC]))
      have h2 := goc_hit fetch today db ip.concept_id ip.concept_id g hnormC
        (by rw [hkC]; exact hcsing)
      exact ⟨g, false, db, g, false, db, h1, h2, rfl, rfl⟩
  · -- order B: concept first, then product
    rcases filter_cases_of_unique (p := fun a => a.concept_id == some ip.concept_id)
        hdb.nodup hconcU with hcmiss | ⟨g, hg, hcg, hcsing⟩
    · -- B1: concept not catalogued; by coherence the product id is absent too
      have hconcNil : ∀ a ∈ db.games, (a.concept_id == some ip.concept_id) = false := by
        intro a ha
        simpa using List.filter_eq_nil_iff.mp hcmiss a ha
      have hownNilC : ∀ a ∈ db.games,
          ownMatch (classify_id ip.concept_id) ip.concept_id a = false := by
        intro a ha
        rw [hkC]
        exact hconcNil a ha
      have hconcNilIc : ∀ a ∈ db.games, (a.concept_id == some ic.concept_id) = false := by
        intro a ha
        rw [hic]
        exact hconcNil a ha
      have h1 := goc_create fetch today db ip.concept_id ip.concept_id ic hnormC
        hownNilC hfC hconcNilIc hidf
      have hownNilP : ∀ a ∈ (dbAfterCreate db today ic).games,
          ownMatch (classify_id P) P a = false := by
        intro a ha
        rcases List.mem_append.mp ha with ha | ha
        · rw [hkP]
          show (a.product_id == some P) = false
          refine beq_opt_false (fun heq => ?_)
          have := hcoh a ha heq
          have hne := hconcNil a ha
          rw [this] at hne
          simp at hne
        · rcases List.mem_singleton.mp ha with rfl
          rw [hkP]
          show ((createdRow db ic).product_id == some P) = false
          rfl
      have hcsing1 : (dbAfterCreate db today ic).games.filter
          (fun a => a.concept_id == some ip.concept_id) = [createdRow db ic] :=
        filter_append_singleton_pos hconcNil (by simp [createdRow, hic])
      have h2 := goc_merge fetch today (dbAfterCreate db today ic) P P ip
        (createdRow db ic) hnormP hownNilP hfP hcsing1
      exact ⟨_, _, _, _, _, _, h1, h2, rfl,
        map_id_name_update (dbAfterCreate db today ic).games _ _⟩
    · -- B2: concept already catalogued as row g
      have h1 := goc_hit fetch today db ip.concept_id ip.concept_id g hnormC
        (by rw [hkC]; exact hcsing)
      have hgC : g.concept_id = some ip.concept_id := by simpa using hcg
      rcases filter_cases_of_unique (p := ownMatch (classify_id P) P) hdb.nodup hprodU
        with hmiss | ⟨h, hh, hph, hsing⟩
      · have hownNil : ∀ a ∈ db.games, ownMatch (classify_id P) P a = false := by
          intro a ha
          simpa using List.filter_eq_nil_iff.mp hmiss a ha
        have h2 := goc_merge fetch today db P P ip g hnormP hownNil hfP hcsing
        exact ⟨g, false, db, g, false, _, h1, h2, rfl, map_id_name_update db.games _ _⟩
      · have hhP : h.product_id = some P := by
          rw [hkP] at hph
          simpa [ownMatch] using hph
        have hhC : h.concept_id = some ip.concept_id := hcoh h hh hhP
        have hhg : h = g := hdb.concept_unique hh hg hhC hgC
        subst hhg
        have h2 := goc_hit fetch today db P P h hnormP hsing
        exact ⟨h, false, db, h, false, db, h1, h2, rfl, rfl⟩

/-- A failing step of the `update_prices` loop body: the extractor exception
propagates. -/
lemma update_price_step_fail (fetch : Fetch) (today : Int) (acc : DB) (gid : Nat)
    (g : GameRow) (c : String) (err : ExtractErr)
    (hfilt : acc.games.filter (fun r => r.id == gid) = [g])
    (hgc : g.concept_id = some c) (hfc : fetch .concept c = .error err) :
    price_update_price fetch today acc gid "ru-ru" none = .error (liftExtract err) := by
  unfold price_update_price
  simp only [one_or_none_of_filter_singleton hfilt, hgc, hfc]

/-- Claim C8, amended.  If the extractor fails for the first stale entry of
the sweep, the whole sweep fails with that exception: nothing is refreshed
(the surrounding transaction rolls back), the remaining stale entries are
not reached, and no count is produced (in Python the function returns `None`
and the exception propagates before even that). -/
theorem claim_C8_sweep_abort_amended
    (fetch : Fetch) (today : Int) (db : DB) (g : GameRow) (rest : List GameRow)
    (c : String) (err : ExtractErr)
    (hdb : db.Inv)
    (hstale : db.games.filter (staleGame db.prices today) = g :: rest)
    (hgc : g.concept_id = some c) (hf : fetch .concept c = .error err) :
    price_update_prices fetch today db = .error (liftExtract err) := by
  have hgmem : g ∈ db.games :=
    List.mem_of_mem_filter (hstale ▸ List.mem_cons_self g rest)
  have hfilt : db.games.filter (fun r => r.id == g.id) = [g] := by
    refine filter_eq_singleton_of_unique hdb.nodup hgmem (by simp) ?_
    intro a ha hpa
    exact hdb.id_unique ha hgmem (by simpa using hpa)
  unfold price_update_prices
  rw [hstale]
  show updatePricesGo fetch today (g.id :: rest.map (fun g => g.id)) db = _
  unfold updatePricesGo
  rw [update_price_step_fail fetch today db g.id g c err hfilt hgc hf]

/-! ## Lemmas about the URL normalization path -/

lemma dropLeading_append (pre l : List Char) : dropLeading pre (pre ++ l) = some l := by
  induction pre with
  | nil => rfl
  | cons x xs ih => simp [dropLeading, ih]

lemma dropWhile_append_all {p : Char → Bool} (a b : List Char)
    (h : ∀ c ∈ a, p c = true) :
    (a ++ b).dropWhile p = b.dropWhile p := by
  induction a with
  | nil => rfl
  | cons x xs ih =>
    have hx := h x (List.mem_cons_self _ _)
    simp only [List.cons_append, List.dropWhile_cons, hx, if_true]
    exact ih (fun c hc => h c (List.mem_cons_of_mem _ hc))

lemma invEmptyDB : emptyDB.Inv := ⟨by simp [emptyDB], List.Pairwise.nil⟩

lemma invDbOneGame : dbOneGame.Inv := by
  refine ⟨by decide, ?_⟩
  exact List.pairwise_singleton _ _

lemma invDbTwoStale : dbTwoStale.Inv := by
  refine ⟨by decide, ?_⟩
  refine List.Pairwise.cons (fun b hb => ?_) (List.pairwise_singleton _ _)
  rcases List.mem_singleton.mp hb with rfl
  exact ⟨by decide, by decide, by decide⟩

theorem claim_C1_witness :
    (∃ g1 c1 db1 g2 c2 db2,
      game_get_or_create exFetch 7 emptyDB "ABC-1" = .ok (g1, c1, db1) ∧
      game_get_or_create exFetch 7 db1 "100" = .ok (g2, c2, db2) ∧
      g2.id = g1.id ∧
      db2.games.map (fun r => r.id) = db1.games.map (fun r => r.id)) ∧
    (∃ g1 c1 db1 g2 c2 db2,
      game_get_or_create exFetch 7 emptyDB "100" = .ok (g1, c1, db1) ∧
      game_get_or_create exFetch 7 db1 "ABC-1" = .ok (g2, c2, db2) ∧
      g2.id = g1.id ∧
      db2.games.map (fun r => r.id) = db1.games.map (fun r => r.id)) :=
  claim_C1_cross_namespace_dedup exFetch 7 emptyDB "ABC-1" "100" exInfo exInfo
    invEmptyDB (by decide) (by decide) (by decide) rfl rfl rfl rfl (by simp [emptyDB])

theorem claim_C2_witness :
    ∃ g1 db1 g2 c2 db2,
      game_get_or_create exFetch 7 emptyDB "ABC-1" = .ok (g1, true, db1) ∧
      game_get_or_create exFetch 7 db1 "ABC-1" = .ok (g2, c2, db2) ∧
      g2.id = g1.id ∧ c2 = false :=
  claim_C2_resolve_idempotent exFetch 7 emptyDB "ABC-1" "ABC-1" exInfo
    invEmptyDB rfl rfl (by decide) (by simp [emptyDB]) (by simp [emptyDB])

theorem claim_C5_witness :
    ∃ db2,
      game_get_or_create fetchEmptyName 9 dbOneGame "ABC-1" =
        .ok (gameRow100, false, db2) ∧
      (∀ r ∈ db2.games, r.id = gameRow100.id →
        r.name = minByLen gameRow100.name infoEmptyName.name) ∧
      (infoEmptyName.name.length < gameRow100.name.length →
        minByLen gameRow100.name infoEmptyName.name = infoEmptyName.name) ∧
      (gameRow100.name.length ≤ infoEmptyName.name.length →
        minByLen gameRow100.name infoEmptyName.name = gameRow100.name) ∧
      db2.games.map (fun r => r.id) = dbOneGame.games.map (fun r => r.id) :=
  claim_C5_name_merge_amended fetchEmptyName 9 dbOneGame "ABC-1" "ABC-1"
    infoEmptyName gameRow100 invDbOneGame rfl (by decide) rfl
    (List.mem_cons_self _ _) rfl

theorem claim_C8_witness :
    price_update_prices fetchFailFirst 1 dbTwoStale =
      .error (liftExtract .stopIteration) :=
  claim_C8_sweep_abort_amended fetchFailFirst 1 dbTwoStale gameRow100 [gameRow200]
    "100" .stopIteration invDbTwoStale (by decide) rfl rfl

theorem claim_C10_witness :
    ∃ db2,
      wish_delete exFetch 7 emptyDB "91717534" "ABC-1" = .ok (.nonePair, db2) ∧
      db2.games.length = emptyDB.games.length + 1 ∧
      emptyDB.prices.length < db2.prices.length ∧
      db2.wishes = emptyDB.wishes :=
  claim_C10_delete_grows_catalog exFetch 7 emptyDB "91717534" "ABC-1" "ABC-1"
    exInfo invEmptyDB (by simp [emptyDB]) rfl rfl (by simp [emptyDB])
    (by simp [emptyDB]) (by decide)
